import Mathlib

/-!
Verification development for a small file-backed record store
(repository layout: `src/primitive_db`, the token-splitting realization, and
`src/simple_json_db`, the restricted-expression realization).

The Python source is shallowly embedded: dictionaries become association
lists with first-match lookup and update-or-append assignment, the mutable
engine objects become explicit state records threaded through each
operation, and raising an exception becomes returning `Except.error`.
An operation whose Python body mutates `self` returns the post-state
together with its result; error paths return the state unmodified exactly
when the raise occurs before any mutation in the source.

Python floats are modeled by exact decimal values (no claim here depends
on binary rounding, infinities or NaN); `str.strip`/`str.lower` are
modeled over the ASCII ranges that the claims exercise.
-/

namespace SimpleDb

/-- First-match lookup in an association list (Python `dict[key]` access;
keys are unique in every list we build, via `aset`). -/
def alookup {α : Type} [DecidableEq α] {β : Type} : List (α × β) → α → Option β
  | [], _ => none
  | (k, v) :: rest, key => if k = key then some v else alookup rest key

/-- Update-or-append assignment (Python `dict[key] = value`). -/
def aset {α : Type} [DecidableEq α] {β : Type} : List (α × β) → α → β → List (α × β)
  | [], key, val => [(key, val)]
  | (k, v) :: rest, key, val =>
    if k = key then (k, val) :: rest else (k, v) :: aset rest key val

/-- Key removal (Python `del dict[key]` / `dict.pop(key, None)`). -/
def aremove {α : Type} [DecidableEq α] {β : Type} : List (α × β) → α → List (α × β)
  | [], _ => []
  | (k, v) :: rest, key => if k = key then rest else (k, v) :: aremove rest key

/-- `Except` success test as a `Bool`. -/
def exceptOk {ε α : Type} : Except ε α → Bool
  | .ok _ => true
  | .error _ => false

instance {ε α : Type} [DecidableEq ε] [DecidableEq α] : DecidableEq (Except ε α)
  | .ok a, .ok b =>
    if h : a = b then .isTrue (by rw [h])
    else .isFalse (by intro hc; injection hc; contradiction)
  | .ok _, .error _ => .isFalse (by intro hc; cases hc)
  | .error _, .ok _ => .isFalse (by intro hc; cases hc)
  | .error e, .error f =>
    if h : e = f then .isTrue (by rw [h])
    else .isFalse (by intro hc; injection hc; contradiction)

/-- An exact decimal `num / 10 ^ exp`, modeling a finite Python float.
(No claim depends on binary rounding, so the decimal literal's exact value
is used.) -/
structure Dec10 where
  num : Int
  exp : Nat
  deriving DecidableEq

/-- Numeric equality of decimals by cross-multiplication. -/
def decNumEq (a b : Dec10) : Bool :=
  decide (a.num * (10 : Int) ^ b.exp = b.num * (10 : Int) ^ a.exp)

/-- Numeric strict order of decimals by cross-multiplication. -/
def decNumLt (a b : Dec10) : Bool :=
  decide (a.num * (10 : Int) ^ b.exp < b.num * (10 : Int) ^ a.exp)

/-- Numeric weak order of decimals by cross-multiplication. -/
def decNumLe (a b : Dec10) : Bool :=
  decide (a.num * (10 : Int) ^ b.exp ≤ b.num * (10 : Int) ^ a.exp)

/-- A dynamic scalar value: Python `None`, `int`, `float`, `str`, `bool`. -/
inductive PyVal
  | vnone
  | vint (n : Int)
  | vfloat (d : Dec10)
  | vstr (s : String)
  | vbool (b : Bool)
  deriving DecidableEq

/-- Numeric view: Python treats `bool` as an `int` subtype, and compares
`int` and `float` numerically. -/
def PyVal.numView : PyVal → Option Dec10
  | .vint n => some ⟨n, 0⟩
  | .vfloat d => some d
  | .vbool b => some ⟨if b then 1 else 0, 0⟩
  | _ => none

/-- Python `==` on scalars: numeric cross-type equality, string equality,
`None == None`; every cross-kind pair is unequal. Never raises. -/
def pyEq (a b : PyVal) : Bool :=
  match a.numView, b.numView with
  | some x, some y => decNumEq x y
  | _, _ =>
    match a, b with
    | .vnone, .vnone => true
    | .vstr s, .vstr t => decide (s = t)
    | _, _ => false

/-- Code-point lexicographic order on character lists (Python `str < str`). -/
def charListLt : List Char → List Char → Bool
  | [], [] => false
  | [], _ :: _ => true
  | _ :: _, [] => false
  | a :: as, b :: bs =>
    if a.val < b.val then true
    else if a.val = b.val then charListLt as bs
    else false

/-- Python `<`: numbers compare numerically, strings lexicographically;
any other pairing (including `None` on either side) raises `TypeError`,
modeled as `none`. -/
def pyLt (a b : PyVal) : Option Bool :=
  match a.numView, b.numView with
  | some x, some y => some (decNumLt x y)
  | _, _ =>
    match a, b with
    | .vstr s, .vstr t => some (charListLt s.data t.data)
    | _, _ => none

/-- Python `<=` (total on the comparable pairs, `none` on `TypeError`). -/
def pyLe (a b : PyVal) : Option Bool :=
  match a.numView, b.numView with
  | some x, some y => some (decNumLe x y)
  | _, _ =>
    match a, b with
    | .vstr s, .vstr t => some (!charListLt t.data s.data)
    | _, _ => none

/-- Python `>`. -/
def pyGt (a b : PyVal) : Option Bool := pyLt b a

/-- Python `>=`. -/
def pyGe (a b : PyVal) : Option Bool := pyLe b a

/-- Python truthiness (`bool(value)`). -/
def pyTruthy : PyVal → Bool
  | .vnone => false
  | .vint n => decide (n ≠ 0)
  | .vfloat d => decide (d.num ≠ 0)
  | .vstr s => decide (s ≠ "")
  | .vbool b => b

/-- ASCII whitespace strip (Python `str.strip()` on the inputs we model). -/
def trimChars (s : List Char) : List Char :=
  ((s.dropWhile Char.isWhitespace).reverse.dropWhile Char.isWhitespace).reverse

/-- String strip. -/
def strTrim (s : String) : String := String.mk (trimChars s.data)

/-- ASCII lowercase (Python `str.lower()` on the inputs we model). -/
def strToLower (s : String) : String := String.mk (s.data.map Char.toLower)

/-! ## `primitive_db.errors` -/

/-- Domain errors of `primitive_db` (`errors.py`); Python `TypeError`
escaping `_match` is carried by `pyTypeErr`. -/
inductive DbErr
  | parseErr (msg : String)
  | schemaErr (msg : String)
  | validationErr (msg : String)
  | tableExistsErr (msg : String)
  | tableNotFoundErr (msg : String)
  | pyTypeErr (msg : String)
  deriving DecidableEq

/-! ## `primitive_db.utils` -/

/-- First character of the identifier regex `[A-Za-z_]`. -/
def isIdentStart (c : Char) : Bool := c.isAlpha || c = '_'

/-- Later characters of the identifier regex `[A-Za-z0-9_]`. -/
def isIdentChar (c : Char) : Bool := c.isAlphanum || c = '_'

/-- `utils.ensure_identifier`: `^[A-Za-z_][A-Za-z0-9_]*$` (as a Bool;
callers raise `ValidationError` on `false`). -/
def ensure_identifier (name : String) : Bool :=
  match name.data with
  | [] => false
  | c :: rest => isIdentStart c && rest.all isIdentChar

/-- `utils.strip_quotes`: strip, then remove one matching pair of outer
single or double quotes. -/
def strip_quotes (value : String) : String :=
  let v := strTrim value
  let cs := v.data
  if 2 ≤ cs.length ∧ cs.head? = cs.getLast? ∧ (cs.head? = some '\'' ∨ cs.head? = some '"') then
    String.mk cs.tail.dropLast
  else v

/-- Digit run with Python underscore grouping (`1_000` valid, `_1`, `1_`,
`1__0`, empty all invalid). -/
def pyDigitsOk (s : List Char) : Bool :=
  (s.splitOn '_').all (fun g => !g.isEmpty && g.all Char.isDigit)

/-- Value of a digit run (underscores skipped). -/
def digitsVal (s : List Char) : Nat :=
  (s.filter (fun c => c ≠ '_')).foldl (fun acc c => acc * 10 + (c.toNat - 48)) 0

/-- Python `int(str)`: optional surrounding whitespace, optional sign,
underscore-grouped digits; `none` models `ValueError`. -/
def pyIntParse (raw : String) : Option Int :=
  match (strTrim raw).data with
  | '+' :: rest => if pyDigitsOk rest then some (Int.ofNat (digitsVal rest)) else none
  | '-' :: rest => if pyDigitsOk rest then some (-(Int.ofNat (digitsVal rest))) else none
  | cs => if pyDigitsOk cs then some (Int.ofNat (digitsVal cs)) else none

/-- Mantissa part `d+ | d+.d* | .d+` (underscore-grouped), as an unsigned
decimal `(digit value, fraction length)`, or `none` on a malformed
mantissa. -/
def pyMantissa (cs : List Char) : Option Dec10 :=
  match cs.splitOn '.' with
  | [ip] => if pyDigitsOk ip then some ⟨Int.ofNat (digitsVal ip), 0⟩ else none
  | [ip, fp] =>
    if (ip.isEmpty || pyDigitsOk ip) && (fp.isEmpty || pyDigitsOk fp)
        && !(ip.isEmpty && fp.isEmpty) then
      let flen := (fp.filter (fun c => c ≠ '_')).length
      some ⟨Int.ofNat (digitsVal ip * 10 ^ flen + digitsVal fp), flen⟩
    else none
  | _ => none

/-- Signed integer exponent (for the `e` part of a float literal). -/
def pyExpParse (cs : List Char) : Option Int :=
  match cs with
  | '+' :: rest => if pyDigitsOk rest then some (Int.ofNat (digitsVal rest)) else none
  | '-' :: rest => if pyDigitsOk rest then some (-(Int.ofNat (digitsVal rest))) else none
  | _ => if pyDigitsOk cs then some (Int.ofNat (digitsVal cs)) else none

/-- Scale a decimal by `10 ^ e`. -/
def decScale (d : Dec10) (e : Int) : Dec10 :=
  match e with
  | .ofNat k => ⟨d.num * (10 : Int) ^ k, d.exp⟩
  | .negSucc k => ⟨d.num, d.exp + (k + 1)⟩

/-- Python `float(str)` restricted to finite decimal literals
(optional sign, mantissa, optional `e` exponent); the `inf`/`nan` tokens
are outside this model. `none` models `ValueError`. -/
def pyFloatParse (raw : String) : Option Dec10 :=
  let t := (strTrim raw).data.map Char.toLower
  let sb : Int × List Char :=
    match t with
    | '+' :: rest => (1, rest)
    | '-' :: rest => (-1, rest)
    | _ => (1, t)
  match sb.2.splitOn 'e' with
  | [mant] => (pyMantissa mant).map (fun m => ⟨sb.1 * m.num, m.exp⟩)
  | [mant, ex] =>
    match pyMantissa mant, pyExpParse ex with
    | some m, some e => some (decScale ⟨sb.1 * m.num, m.exp⟩ e)
    | _, _ => none
  | _ => none

/-- `constants.BOOL_TRUE`. -/
def BOOL_TRUE : List String := ["true", "1", "yes", "y", "да", "д"]

/-- `constants.BOOL_FALSE`. -/
def BOOL_FALSE : List String := ["false", "0", "no", "n", "нет", "н"]

/-- `constants.SUPPORTED_TYPES` (key set). -/
def SUPPORTED_TYPES_P : List String := ["int", "float", "str", "bool"]

/-- `utils.parse_scalar`: strip; literal `null`/`none` (case-insensitive)
short-circuits to `None` before any type handling; then dispatch on the
declared type name. -/
def parse_scalar (raw0 : String) (type_name : String) : Except DbErr PyVal :=
  let raw := strTrim raw0
  if strToLower raw = "null" ∨ strToLower raw = "none" then .ok .vnone
  else if type_name = "str" then .ok (.vstr (strip_quotes raw))
  else if type_name = "bool" then
    let lowered := strToLower (strTrim (strip_quotes raw))
    if BOOL_TRUE.contains lowered then .ok (.vbool true)
    else if BOOL_FALSE.contains lowered then .ok (.vbool false)
    else .error (.validationErr ("Некорректное значение bool: " ++ raw))
  else if type_name = "int" then
    match pyIntParse (strip_quotes raw) with
    | some n => .ok (.vint n)
    | none => .error (.validationErr ("Некорректное значение int: " ++ raw))
  else if type_name = "float" then
    match pyFloatParse (strip_quotes raw) with
    | some q => .ok (.vfloat q)
    | none => .error (.validationErr ("Некорректное значение float: " ++ raw))
  else .error (.schemaErr ("Неподдерживаемый тип: " ++ type_name))

/-- `utils.Condition`: one comparison (field, operator, raw value). -/
structure Condition where
  field : String
  op : String
  raw_value : String
  deriving DecidableEq

/-- `pat` is a prefix of `s` (over characters). -/
def startsList : List Char → List Char → Bool
  | [], _ => true
  | _ :: _, [] => false
  | p :: ps, c :: cs => p = c && startsList ps cs

/-- First-occurrence split: if `pat` occurs in `s`, return the text before
and after its first occurrence (Python `pat in s` + `s.split(pat, 1)`). -/
def findSplit (pat : List Char) : List Char → Option (List Char × List Char)
  | [] => if pat.isEmpty then some ([], []) else none
  | c :: rest =>
    if startsList pat (c :: rest) then some ([], (c :: rest).drop pat.length)
    else
      match findSplit pat rest with
      | some (pre, post) => some (c :: pre, post)
      | none => none

/-- String version of `findSplit`. -/
def splitOnce (pat s : String) : Option (String × String) :=
  (findSplit pat.data s.data).map (fun p => (String.mk p.1, String.mk p.2))

/-- Operator candidates of `utils.parse_comparison`, longest first
(the source comment: "Order matters: check longest operators first."). -/
def COMPARISON_OPS : List String := [">=", "<=", "!=", "=", ">", "<"]

/-- The operator loop body of `utils.parse_comparison`. -/
def parse_comparison_go (expr : String) : List String → Except DbErr Condition
  | [] => .error (.parseErr ("Не удалось распознать условие: " ++ expr))
  | op :: rest =>
    match splitOnce op expr with
    | some (fieldRaw, rawRaw) =>
      let field := strTrim fieldRaw
      let raw := strTrim rawRaw
      if ensure_identifier field then
        if raw = "" then .error (.parseErr ("Пустое значение в условии: " ++ expr))
        else .ok ⟨field, op, raw⟩
      else .error (.validationErr ("Некорректное имя поля: " ++ field))
    | none => parse_comparison_go expr rest

/-- `utils.parse_comparison`: strip, then scan the operators longest
first; split at the first occurrence of the first operator found. -/
def parse_comparison (expr0 : String) : Except DbErr Condition :=
  parse_comparison_go (strTrim expr0) COMPARISON_OPS

/-! ## `primitive_db.core` -/

/-- A record: field name to scalar value, in insertion order. -/
abbrev Row := List (String × PyVal)

/-- One prepared comparison `(field, op, typed value)`. -/
abbrev Prep := String × String × PyVal

/-- Per-table metadata entry: `{"schema": ..., "last_id": ...}`. -/
structure TableInfo where
  schema : List (String × String)
  last_id : Int
  deriving DecidableEq

/-- `core.SelectResult`. -/
structure SelectResult where
  rows : List Row
  from_cache : Bool
  deriving DecidableEq

/-- Cache key of `_make_select_cache`: `(table, where_key, version)`.
The source's `where_key` is `str([(f, op, repr(v)) for ...])`; since
`repr` is injective on the prepared triples, the string key is modeled by
the prepared list itself (two keys are equal iff the strings are). -/
structure CacheKey where
  table : String
  whereKey : List Prep
  version : Nat
  deriving DecidableEq

/-- The whole mutable state of a `PrimitiveDB` instance: the metadata
file (`tables`), the per-table row files (`rowsStore`), the in-memory
version counters and the closure-held select cache. -/
structure DBState where
  tables : List (String × TableInfo)
  rowsStore : List (String × List Row)
  versions : List (String × Nat)
  cache : List (CacheKey × List Row)
  deriving DecidableEq

/-- `storage.load_table`: missing file reads as the empty list. -/
def loadTable (s : DBState) (t : String) : List Row :=
  (alookup s.rowsStore t).getD []

/-- `self._versions.get(table, 0)`. -/
def DBState.version (s : DBState) (t : String) : Nat :=
  (alookup s.versions t).getD 0

/-- `PrimitiveDB._touch`: bump the table's version counter. -/
def touch (s : DBState) (t : String) : DBState :=
  { s with versions := aset s.versions t (s.version t + 1) }

/-- The per-condition body of `PrimitiveDB._coerce_where`: resolve the
declared type (`int` for the reserved `id`, otherwise from the schema,
unknown field raising `ValidationError`) and coerce the raw value. -/
def coerceWhereGo (schema : List (String × String)) :
    List Condition → Except DbErr (List Prep)
  | [] => .ok []
  | cond :: rest =>
    match
      (if cond.field = "id" then .ok "int"
       else
         match alookup schema cond.field with
         | none => .error (.validationErr ("Неизвестное поле в where: " ++ cond.field))
         | some ty => .ok ty : Except DbErr String) with
    | .error e => .error e
    | .ok type_name =>
      match parse_scalar cond.raw_value type_name with
      | .error e => .error e
      | .ok v =>
        match coerceWhereGo schema rest with
        | .error e => .error e
        | .ok prepped => .ok ((cond.field, cond.op, v) :: prepped)

/-- `PrimitiveDB._coerce_where`: empty where-clause prepares to `[]`
before any table lookup; otherwise the table must exist. -/
def coerce_where (tables : List (String × TableInfo)) (t : String)
    (w : List Condition) : Except DbErr (List Prep) :=
  if w.isEmpty then .ok []
  else
    match alookup tables t with
    | none => .error (.tableNotFoundErr ("Таблица не найдена: " ++ t))
    | some info => coerceWhereGo info.schema w

/-- `PrimitiveDB._match`: AND-conjunction over prepared comparisons with
short-circuit on the first failing one; `row.get(field)` yields `None`
for an absent field; ordering operators first test both operands against
`None` and only then compare (a Python `TypeError` from an incomparable
pair propagates). -/
def pdbMatch (row : Row) : List Prep → Except DbErr Bool
  | [] => .ok true
  | (field, op, value) :: rest =>
    let left := (alookup row field).getD .vnone
    if op = "=" then
      if pyEq left value then pdbMatch row rest else .ok false
    else if op = "!=" then
      if pyEq left value then .ok false else pdbMatch row rest
    else if op = ">" then
      if left = .vnone ∨ value = .vnone then .ok false
      else
        match pyGt left value with
        | none => .error (.pyTypeErr "TypeError: не сравнимые типы")
        | some b => if b then pdbMatch row rest else .ok false
    else if op = "<" then
      if left = .vnone ∨ value = .vnone then .ok false
      else
        match pyLt left value with
        | none => .error (.pyTypeErr "TypeError: не сравнимые типы")
        | some b => if b then pdbMatch row rest else .ok false
    else if op = ">=" then
      if left = .vnone ∨ value = .vnone then .ok false
      else
        match pyGe left value with
        | none => .error (.pyTypeErr "TypeError: не сравнимые типы")
        | some b => if b then pdbMatch row rest else .ok false
    else if op = "<=" then
      if left = .vnone ∨ value = .vnone then .ok false
      else
        match pyLe left value with
        | none => .error (.pyTypeErr "TypeError: не сравнимые типы")
        | some b => if b then pdbMatch row rest else .ok false
    else .error (.validationErr ("Неподдерживаемый оператор: " ++ op))

/-- In-order filter by `_match`, first error aborting (the list
comprehension in `select.compute`). -/
def matchRowsGo (prepared : List Prep) : List Row → Except DbErr (List Row)
  | [] => .ok []
  | r :: rest =>
    match pdbMatch r prepared with
    | .error e => .error e
    | .ok b =>
      match matchRowsGo prepared rest with
      | .error e => .error e
      | .ok tail => .ok (if b then r :: tail else tail)

/-- `select.compute`: all rows for an empty preparation, the `_match`
filter otherwise. -/
def matchRows (rows : List Row) (prepared : List Prep) : Except DbErr (List Row) :=
  if prepared.isEmpty then .ok rows else matchRowsGo prepared rows

/-- Schema construction loop of `PrimitiveDB.create_table`: reserved
`id`, duplicate fields and unsupported types are rejected in that order. -/
def buildSchema (acc : List (String × String)) :
    List (String × String) → Except DbErr (List (String × String))
  | [] => .ok acc
  | (field, type_name) :: rest =>
    if field = "id" then
      .error (.schemaErr "Поле id зарезервировано (генерируется автоматически)")
    else if (alookup acc field).isSome then
      .error (.schemaErr ("Дублирующееся поле: " ++ field))
    else if SUPPORTED_TYPES_P.contains type_name then
      buildSchema (acc ++ [(field, type_name)]) rest
    else .error (.schemaErr ("Неподдерживаемый тип: " ++ type_name))

/-- `PrimitiveDB.create_table`: validations, then write the metadata
entry with `last_id = 0`, an empty row file, and version counter `0`.
The select cache is not touched. -/
def pdbCreateTable (s : DBState) (t : String) (columns : List (String × String)) :
    DBState × Except DbErr Unit :=
  if ensure_identifier t = true then
    if (alookup s.tables t).isSome then
      (s, .error (.tableExistsErr ("Таблица уже существует: " ++ t)))
    else if columns.isEmpty then
      (s, .error (.schemaErr "Нельзя создать таблицу без полей"))
    else
      match buildSchema [] columns with
      | .error e => (s, .error e)
      | .ok schema =>
        ({ s with
            tables := aset s.tables t ⟨schema, 0⟩
            rowsStore := aset s.rowsStore t []
            versions := aset s.versions t 0 }, .ok ())
  else (s, .error (.validationErr ("Некорректное имя таблицы: " ++ t)))

/-- `PrimitiveDB.drop_table` (wrapped in `confirm_action`): a declined
confirmation is a no-op; otherwise remove the row file, the metadata
entry and the version counter. The select cache is not touched. -/
def pdbDropTable (s : DBState) (t : String) (confirmed : Bool) :
    DBState × Except DbErr Unit :=
  if confirmed = true then
    if ensure_identifier t = true then
      match alookup s.tables t with
      | none => (s, .error (.tableNotFoundErr ("Таблица не найдена: " ++ t)))
      | some _ =>
        ({ s with
            tables := aremove s.tables t
            rowsStore := aremove s.rowsStore t
            versions := aremove s.versions t }, .ok ())
    else (s, .error (.validationErr ("Некорректное имя таблицы: " ++ t)))
  else (s, .ok ())

/-- Coercion loop of `PrimitiveDB.insert`: one value per schema field, in
schema order (every field is present; the missing-fields check ran). -/
def coerceRow (values : List (String × String)) :
    List (String × String) → Except DbErr Row
  | [] => .ok []
  | (field, type_name) :: rest =>
    match parse_scalar ((alookup values field).getD "") type_name with
    | .error e => .error e
    | .ok v =>
      match coerceRow values rest with
      | .error e => .error e
      | .ok tail => .ok ((field, v) :: tail)

/-- `PrimitiveDB.insert`: identifier and existence checks, missing- and
extra-field checks, coercion of every value — and only then the
`last_id` bump, the append, and the version touch. -/
def pdbInsert (s : DBState) (t : String) (values : List (String × String)) :
    DBState × Except DbErr Row :=
  if ensure_identifier t = true then
    match alookup s.tables t with
    | none => (s, .error (.tableNotFoundErr ("Таблица не найдена: " ++ t)))
    | some info =>
      if ((info.schema.map Prod.fst).filter (fun f => (alookup values f).isNone)).isEmpty = true then
        if ((values.map Prod.fst).filter (fun f => (alookup info.schema f).isNone)).isEmpty = true then
          match coerceRow values info.schema with
          | .error e => (s, .error e)
          | .ok row0 =>
            (touch
              { s with
                  tables := aset s.tables t ⟨info.schema, info.last_id + 1⟩
                  rowsStore := aset s.rowsStore t
                    (loadTable s t ++ [aset row0 "id" (PyVal.vint (info.last_id + 1))]) } t,
              .ok (aset row0 "id" (PyVal.vint (info.last_id + 1))))
        else (s, .error (.validationErr "Лишние поля"))
      else (s, .error (.validationErr "Не заполнены поля"))
  else (s, .error (.validationErr ("Некорректное имя таблицы: " ++ t)))

/-- `PrimitiveDB.select` with the `_make_select_cache` wrapper: prepare
the where-clause, look up `(table, where_key, version)`; on a hit return
the cached snapshot marked `from_cache`, otherwise run the linear scan
and store it. -/
def pdbSelect (s : DBState) (t : String) (w : List Condition) :
    DBState × Except DbErr SelectResult :=
  if ensure_identifier t = true then
    match alookup s.tables t with
    | none => (s, .error (.tableNotFoundErr ("Таблица не найдена: " ++ t)))
    | some _ =>
      match coerce_where s.tables t w with
      | .error e => (s, .error e)
      | .ok prepared =>
        match alookup s.cache ⟨t, prepared, s.version t⟩ with
        | some rows => (s, .ok ⟨rows, true⟩)
        | none =>
          match matchRows (loadTable s t) prepared with
          | .error e => (s, .error e)
          | .ok rows =>
            ({ s with cache := aset s.cache ⟨t, prepared, s.version t⟩ rows },
              .ok ⟨rows, false⟩)
  else (s, .error (.validationErr ("Некорректное имя таблицы: " ++ t)))

/-- The `set` preparation loop of `PrimitiveDB.update`: per field, the
reserved-`id` check, the unknown-field check, then coercion. -/
def prepSet (schema : List (String × String)) :
    List (String × String) → Except DbErr (List (String × PyVal))
  | [] => .ok []
  | (field, raw) :: rest =>
    if field = "id" then .error (.validationErr "Поле id нельзя изменять")
    else
      match alookup schema field with
      | none => .error (.validationErr ("Неизвестное поле в set: " ++ field))
      | some ty =>
        match parse_scalar raw ty with
        | .error e => .error e
        | .ok v =>
          match prepSet schema rest with
          | .error e => .error e
          | .ok tail => .ok ((field, v) :: tail)

/-- The row loop of `PrimitiveDB.update`: a row matching the preparation
(or every row when it is empty) receives the prepared assignments. -/
def updateRowsGo (preparedWhere : List Prep) (preparedSet : List (String × PyVal)) :
    List Row → Except DbErr (List Row × Int)
  | [] => .ok ([], 0)
  | r :: rest =>
    match
      (if preparedWhere.isEmpty then .ok true else pdbMatch r preparedWhere
        : Except DbErr Bool) with
    | .error e => .error e
    | .ok b =>
      let r' := if b then preparedSet.foldl (fun acc fv => aset acc fv.1 fv.2) r else r
      match updateRowsGo preparedWhere preparedSet rest with
      | .error e => .error e
      | .ok (tail, n) => .ok (r' :: tail, n + (if b then 1 else 0))

/-- `PrimitiveDB.update`: validations and preparations, then the row
sweep, then save and touch. -/
def pdbUpdate (s : DBState) (t : String) (set_values : List (String × String))
    (w : List Condition) : DBState × Except DbErr Int :=
  if ensure_identifier t = true then
    match alookup s.tables t with
    | none => (s, .error (.tableNotFoundErr ("Таблица не найдена: " ++ t)))
    | some info =>
      if set_values.isEmpty then (s, .error (.validationErr "Команда update требует set"))
      else
        match prepSet info.schema set_values with
        | .error e => (s, .error e)
        | .ok preparedSet =>
          match coerce_where s.tables t w with
          | .error e => (s, .error e)
          | .ok preparedWhere =>
            match updateRowsGo preparedWhere preparedSet (loadTable s t) with
            | .error e => (s, .error e)
            | .ok (rows, n) =>
              (touch { s with rowsStore := aset s.rowsStore t rows } t, .ok n)
  else (s, .error (.validationErr ("Некорректное имя таблицы: " ++ t)))

/-- The keep-filter of `PrimitiveDB.delete` (rows NOT matching). -/
def deleteRowsGo (prepared : List Prep) : List Row → Except DbErr (List Row)
  | [] => .ok []
  | r :: rest =>
    match pdbMatch r prepared with
    | .error e => .error e
    | .ok b =>
      match deleteRowsGo prepared rest with
      | .error e => .error e
      | .ok tail => .ok (if b then tail else r :: tail)

/-- `PrimitiveDB.delete`: an empty preparation asks for confirmation
(declined: cancelled, count 0, no state change); otherwise the matching
rows are removed, then save and touch. -/
def pdbDelete (s : DBState) (t : String) (w : List Condition) (confirmed : Bool) :
    DBState × Except DbErr Int :=
  if ensure_identifier t = true then
    match alookup s.tables t with
    | none => (s, .error (.tableNotFoundErr ("Таблица не найдена: " ++ t)))
    | some _ =>
      match coerce_where s.tables t w with
      | .error e => (s, .error e)
      | .ok prepared =>
        if prepared.isEmpty then
          if confirmed = true then
            (touch { s with rowsStore := aset s.rowsStore t [] } t,
              .ok (Int.ofNat (loadTable s t).length))
          else (s, .ok 0)
        else
          match deleteRowsGo prepared (loadTable s t) with
          | .error e => (s, .error e)
          | .ok kept =>
            (touch { s with rowsStore := aset s.rowsStore t kept } t,
              .ok (Int.ofNat ((loadTable s t).length - kept.length)))
  else (s, .error (.validationErr ("Некорректное имя таблицы: " ++ t)))

/-! ## `simple_json_db.types` -/

/-- Errors of the `simple_json_db` realization: `TypeErrorDB`,
`SchemaError`, `EngineError`, plus a Python `KeyError` and a propagated
predicate-evaluation exception. -/
inductive JErr
  | typeErrorDB (msg : String)
  | schemaError (msg : String)
  | engineError (msg : String)
  | keyError (msg : String)
  | evalError (msg : String)
  deriving DecidableEq

/-- `types.SUPPORTED_TYPES` (key set). -/
def SUPPORTED_TYPES_J : List String := ["str", "int", "float", "bool"]

/-- `types._to_bool`: case-insensitive fixed token sets (no Russian
variants in this realization). -/
def to_bool (raw : String) : Except JErr PyVal :=
  let value := strToLower (strTrim raw)
  if ["true", "1", "yes", "y"].contains value then .ok (.vbool true)
  else if ["false", "0", "no", "n"].contains value then .ok (.vbool false)
  else .error (.typeErrorDB ("Некорректное логическое значение: " ++ raw))

/-- `types.cast_value`: membership check, then the per-type cast; there
is no null shortcut in this realization. `str` is the identity,
`int`/`float` use the host numeric parser, `bool` uses `_to_bool`. -/
def cast_value (type_name raw : String) : Except JErr PyVal :=
  if SUPPORTED_TYPES_J.contains type_name then
    if type_name = "str" then .ok (.vstr raw)
    else if type_name = "int" then
      match pyIntParse raw with
      | some n => .ok (.vint n)
      | none => .error (.typeErrorDB ("invalid literal for int: " ++ raw))
    else if type_name = "float" then
      match pyFloatParse raw with
      | some d => .ok (.vfloat d)
      | none => .error (.typeErrorDB ("could not convert string to float: " ++ raw))
    else to_bool raw
  else .error (.typeErrorDB ("Неизвестный тип поля: " ++ type_name))

/-! ## `simple_json_db.schema` -/

/-- The coercion loop of `TableSchema.validate_insert` (schema order). -/
def castInsertGo (data : List (String × String)) :
    List (String × String) → Except JErr Row
  | [] => .ok []
  | (field, type_name) :: rest =>
    match cast_value type_name ((alookup data field).getD "") with
    | .error e => .error e
    | .ok v =>
      match castInsertGo data rest with
      | .error e => .error e
      | .ok tail => .ok ((field, v) :: tail)

/-- `TableSchema.validate_insert`: unknown-field check, then
missing-field check, then coercion of every declared field. -/
def validate_insert (fields : List (String × String)) (data : List (String × String)) :
    Except JErr Row :=
  let unknown := (data.map Prod.fst).filter (fun f => (alookup fields f).isNone)
  if unknown.isEmpty then
    let missing := (fields.map Prod.fst).filter (fun f => (alookup data f).isNone)
    if missing.isEmpty then castInsertGo data fields
    else .error (.schemaError "Отсутствуют обязательные поля")
  else .error (.schemaError "Неизвестные поля")

/-- The coercion loop of `TableSchema.validate_update` (payload order). -/
def castUpdateGo (fields : List (String × String)) :
    List (String × String) → Except JErr Row
  | [] => .ok []
  | (field, raw) :: rest =>
    match cast_value ((alookup fields field).getD "") raw with
    | .error e => .error e
    | .ok v =>
      match castUpdateGo fields rest with
      | .error e => .error e
      | .ok tail => .ok ((field, v) :: tail)

/-- `TableSchema.validate_update`: unknown-field check, then coercion of
the supplied subset (no missing-field check). -/
def validate_update (fields : List (String × String)) (data : List (String × String)) :
    Except JErr Row :=
  let unknown := (data.map Prod.fst).filter (fun f => (alookup fields f).isNone)
  if unknown.isEmpty then castUpdateGo fields data
  else .error (.schemaError "Неизвестные поля")

/-! ## `simple_json_db.engine` -/

/-- State of a `DBEngine`: the metadata file's `tables` and `counters`
maps and the per-table row files. -/
structure EngState where
  tablesJ : List (String × List (String × String))
  counters : List (String × Int)
  rowsJ : List (String × List Row)
  deriving DecidableEq

/-- `DBEngine.insert`: schema lookup, `validate_insert`, then the
counter bump (`meta["counters"][table] += 1`, a `KeyError` if absent),
id assignment and append. -/
def engInsert (s : EngState) (t : String) (raw_pairs : List (String × String)) :
    EngState × Except JErr Row :=
  match alookup s.tablesJ t with
  | none => (s, .error (.engineError ("Таблица не найдена: " ++ t)))
  | some fields =>
    match validate_insert fields raw_pairs with
    | .error e => (s, .error e)
    | .ok payload =>
      match alookup s.counters t with
      | none => (s, .error (.keyError t))
      | some c =>
        ({ s with
            counters := aset s.counters t (c + 1)
            rowsJ := aset s.rowsJ t
              ((alookup s.rowsJ t).getD [] ++ [aset payload "id" (PyVal.vint (c + 1))]) },
          .ok (aset payload "id" (PyVal.vint (c + 1))))

/-- The row sweep of `DBEngine.update`: each row matching the compiled
predicate receives the cooked assignments; a predicate exception
propagates. -/
def engUpdateGo (pred : Row → Except String Bool) (cooked : Row) :
    List Row → Except JErr (List Row × Int)
  | [] => .ok ([], 0)
  | r :: rest =>
    match pred r with
    | .error m => .error (.evalError m)
    | .ok b =>
      let r' := if b then cooked.foldl (fun acc fv => aset acc fv.1 fv.2) r else r
      match engUpdateGo pred cooked rest with
      | .error e => .error e
      | .ok (tail, n) => .ok (r' :: tail, n + (if b then 1 else 0))

/-- `DBEngine.update`: schema lookup, `validate_update`, then the row
sweep with the predicate compiled from the where-text (passed here
already compiled), then write. The counters map is never touched. -/
def engUpdate (s : EngState) (t : String) (set_pairs : List (String × String))
    (pred : Row → Except String Bool) : EngState × Except JErr Int :=
  match alookup s.tablesJ t with
  | none => (s, .error (.engineError ("Таблица не найдена: " ++ t)))
  | some fields =>
    match validate_update fields set_pairs with
    | .error e => (s, .error e)
    | .ok cooked =>
      match engUpdateGo pred cooked ((alookup s.rowsJ t).getD []) with
      | .error e => (s, .error e)
      | .ok (rows, n) => ({ s with rowsJ := aset s.rowsJ t rows }, .ok n)

/-- The keep-filter of `DBEngine.delete` (rows NOT matching). -/
def engDeleteGo (pred : Row → Except String Bool) :
    List Row → Except JErr (List Row)
  | [] => .ok []
  | r :: rest =>
    match pred r with
    | .error m => .error (.evalError m)
    | .ok b =>
      match engDeleteGo pred rest with
      | .error e => .error e
      | .ok tail => .ok (if b then tail else r :: tail)

/-- `DBEngine.delete`: with a where-text, filter by the compiled
predicate; without one, clear the table. The counters map is never
touched. -/
def engDelete (s : EngState) (t : String) (pred : Option (Row → Except String Bool)) :
    EngState × Except JErr Int :=
  match alookup s.tablesJ t with
  | none => (s, .error (.engineError ("Таблица не найдена: " ++ t)))
  | some _ =>
    match pred with
    | some p =>
      match engDeleteGo p ((alookup s.rowsJ t).getD []) with
      | .error e => (s, .error e)
      | .ok kept =>
        ({ s with rowsJ := aset s.rowsJ t kept },
          .ok (Int.ofNat (((alookup s.rowsJ t).getD []).length - kept.length)))
    | none =>
      ({ s with rowsJ := aset s.rowsJ t [] },
        .ok (Int.ofNat ((alookup s.rowsJ t).getD []).length))

/-! ## `simple_json_db.where`

`compile_where` normalizes the text, runs Python's expression parser and
validates the resulting tree with `_validate_ast`; the claims are stated
over the parsed tree, so the model starts there. One point of the source
matters a great deal: `_validate_ast` iterates `ast.walk`, and in CPython
`ast.walk` also yields the operator token child nodes (`ast.And`,
`ast.Or`, `ast.Eq`, `ast.Lt`, ...) and the `ast.Load` context nodes —
the source has an explicit branch accepting `ast.Load` for exactly this
reason, but no branch accepts the operator tokens, so they fall through
to the final `raise`. The model reproduces the walked token nodes.
(`ast.walk` is breadth-first; the model walks depth-first, which can only
change which offending node is reported first, never whether one is
found, since the per-node check does not depend on position.) -/

/-- Python comparison operator nodes (`ast.cmpop`). -/
inductive PyCmpOp
  | eqOp | notEqOp | ltOp | ltEOp | gtOp | gtEOp
  | isOp | isNotOp | inOp | notInOp
  deriving DecidableEq

/-- Python boolean operator nodes (`ast.boolop`). -/
inductive PyBoolOp
  | andOp | orOp
  deriving DecidableEq

/-- Python constant payloads (`ast.Constant`). -/
inductive PyConst
  | cint (n : Int) | cfloat (d : Dec10) | cstr (s : String)
  | cbool (b : Bool) | cnone
  deriving DecidableEq

/-- Python expression nodes that can appear under `ast.parse(_, mode="eval")`
(the kinds the claims mention; further kinds would take the same rejected
path as these). -/
inductive PyExpr
  | name (id : String)
  | constant (c : PyConst)
  | boolOp (op : PyBoolOp) (values : List PyExpr)
  | compare (left : PyExpr) (ops : List PyCmpOp) (comparators : List PyExpr)
  | callE (func : PyExpr) (args : List PyExpr)
  | attrE (value : PyExpr) (attr : String)
  | subscrE (value : PyExpr) (index : PyExpr)
  | binOpE (left : PyExpr) (right : PyExpr)
  | unaryE (operand : PyExpr)
  | ifExpE (test body orelse : PyExpr)
  | lambdaE (body : PyExpr)

/-- One visited node of `ast.walk`: an expression node, the `Expression`
wrapper, an operator token child node, or a `Load` context node. -/
inductive WalkItem
  | expr (e : PyExpr)
  | exprRoot
  | boolTok (op : PyBoolOp)
  | cmpTok (op : PyCmpOp)
  | loadTok

mutual

/-- All nodes yielded by `ast.walk` below (and including) an expression
node: the node itself, its operator token and `Load` context children,
and its sub-expressions. -/
def walkExpr : PyExpr → List WalkItem
  | .name i => [.expr (.name i), .loadTok]
  | .constant c => [.expr (.constant c)]
  | .boolOp op vs => .expr (.boolOp op vs) :: .boolTok op :: walkList vs
  | .compare l ops cs =>
    .expr (.compare l ops cs) :: (walkExpr l ++ ops.map WalkItem.cmpTok ++ walkList cs)
  | .callE f args => .expr (.callE f args) :: (walkExpr f ++ walkList args)
  | .attrE v a => .expr (.attrE v a) :: (walkExpr v ++ [.loadTok])
  | .subscrE v i => .expr (.subscrE v i) :: (walkExpr v ++ walkExpr i ++ [.loadTok])
  | .binOpE l r => .expr (.binOpE l r) :: (walkExpr l ++ walkExpr r)
  | .unaryE v => .expr (.unaryE v) :: walkExpr v
  | .ifExpE t b o => .expr (.ifExpE t b o) :: (walkExpr t ++ walkExpr b ++ walkExpr o)
  | .lambdaE b => .expr (.lambdaE b) :: walkExpr b

/-- Walk of an expression list field. -/
def walkList : List PyExpr → List WalkItem
  | [] => []
  | e :: es => walkExpr e ++ walkList es

end

/-- `_ALLOWED_CMPOPS`: `Eq, NotEq, Lt, LtE, Gt, GtE`. -/
def cmpAllowed : PyCmpOp → Bool
  | .eqOp | .notEqOp | .ltOp | .ltEOp | .gtOp | .gtEOp => true
  | _ => false

/-- The loop body of `_validate_ast` for one visited node. A `BoolOp`
node's own check (`isinstance(n.op, _ALLOWED_BOOL_OPS)`) always passes
since `ast.boolop` has only `And`/`Or`; a `Compare` node checks its
`ops`; `Expression`, `Name`, `Constant` and `Load` pass; everything else
— including the walked operator token nodes — reaches the final
`raise WhereError`. -/
def visitCheck : WalkItem → Except String Unit
  | .exprRoot => .ok ()
  | .loadTok => .ok ()
  | .expr (.boolOp _ _) => .ok ()
  | .expr (.compare _ ops _) =>
    if ops.all cmpAllowed then .ok ()
    else .error "Разрешены только операции сравнения"
  | .expr (.name _) => .ok ()
  | .expr (.constant _) => .ok ()
  | .boolTok _ => .error "Недопустимый элемент в where: boolop"
  | .cmpTok _ => .error "Недопустимый элемент в where: cmpop"
  | .expr _ => .error "Недопустимый элемент в where"

/-- The walk loop of `_validate_ast`: first offending node raises. -/
def validateWalk : List WalkItem → Except String Unit
  | [] => .ok ()
  | item :: rest =>
    match visitCheck item with
    | .error m => .error m
    | .ok _ => validateWalk rest

/-- `_validate_ast` applied to `ast.parse(text, mode="eval")`: walk the
`Expression` wrapper and everything below it. -/
def validate_ast (e : PyExpr) : Except String Unit :=
  validateWalk (WalkItem.exprRoot :: walkExpr e)

/-- Value of an `ast.Constant`. -/
def constVal : PyConst → PyVal
  | .cint n => .vint n
  | .cfloat d => .vfloat d
  | .cstr s => .vstr s
  | .cbool b => .vbool b
  | .cnone => .vnone

/-- Name resolution of `_predicate`: the eval environment is a copy of
the row (`{k: row.get(k) for k in row.keys()}` — only keys present in
the row!) with `True` and `False` then bound on top; an unresolved name
is a `NameError`. -/
def envLookup (row : Row) (n : String) : Option PyVal :=
  if n = "True" then some (.vbool true)
  else if n = "False" then some (.vbool false)
  else alookup row n

/-- One Python comparison between evaluated operands; `is`/`in` forms
never reach evaluation (their token nodes fail validation) and are
modeled as errors. -/
def cmpEval : PyCmpOp → PyVal → PyVal → Except String Bool
  | .eqOp, a, b => .ok (pyEq a b)
  | .notEqOp, a, b => .ok (!pyEq a b)
  | .ltOp, a, b =>
    match pyLt a b with
    | some r => .ok r
    | none => .error "TypeError: unorderable types"
  | .ltEOp, a, b =>
    match pyLe a b with
    | some r => .ok r
    | none => .error "TypeError: unorderable types"
  | .gtOp, a, b =>
    match pyGt a b with
    | some r => .ok r
    | none => .error "TypeError: unorderable types"
  | .gtEOp, a, b =>
    match pyGe a b with
    | some r => .ok r
    | none => .error "TypeError: unorderable types"
  | _, _, _ => .error "is/in comparisons are rejected before evaluation"

mutual

/-- Python `eval` of a validated expression over the `_predicate`
environment. Node kinds that can never pass `_validate_ast` (calls,
attributes, subscripts, arithmetic, ...) are modeled as errors: they are
unreachable through `compile_where`. -/
def evalExpr (row : Row) : PyExpr → Except String PyVal
  | .name n =>
    match envLookup row n with
    | some v => .ok v
    | none => .error ("NameError: name is not defined: " ++ n)
  | .constant c => .ok (constVal c)
  | .boolOp .andOp vs => evalAnd row vs
  | .boolOp .orOp vs => evalOr row vs
  | .compare l ops cs =>
    match evalExpr row l with
    | .error m => .error m
    | .ok lv =>
      match evalChain row lv ops cs with
      | .error m => .error m
      | .ok b => .ok (.vbool b)
  | _ => .error "unsupported node kind (rejected by validation)"

/-- Python `and`: first falsy operand, else the last operand. -/
def evalAnd (row : Row) : List PyExpr → Except String PyVal
  | [] => .ok (.vbool true)
  | [e] => evalExpr row e
  | e :: rest =>
    match evalExpr row e with
    | .error m => .error m
    | .ok v => if pyTruthy v then evalAnd row rest else .ok v

/-- Python `or`: first truthy operand, else the last operand. -/
def evalOr (row : Row) : List PyExpr → Except String PyVal
  | [] => .ok (.vbool false)
  | [e] => evalExpr row e
  | e :: rest =>
    match evalExpr row e with
    | .error m => .error m
    | .ok v => if pyTruthy v then .ok v else evalOr row rest

/-- Python chained comparison: left-to-right, short-circuiting on the
first failing link. -/
def evalChain (row : Row) (prev : PyVal) :
    List PyCmpOp → List PyExpr → Except String Bool
  | [], _ => .ok true
  | _ :: _, [] => .ok true
  | op :: ops, ce :: cs =>
    match evalExpr row ce with
    | .error m => .error m
    | .ok cv =>
      match cmpEval op prev cv with
      | .error m => .error m
      | .ok r => if r then evalChain row cv ops cs else .ok false

end

/-- The predicate body of `compile_where`:
`bool(eval(code, {"__builtins__": {}}, env))`. -/
def predEval (row : Row) (e : PyExpr) : Except String Bool :=
  match evalExpr row e with
  | .error m => .error m
  | .ok v => .ok (pyTruthy v)

/-- `compile_where` from the parsed tree on: validate, then produce the
predicate closure. (The empty-text shortcut and the `=`→`==` text
normalization happen before parsing and do not affect the tree-level
claims.) -/
def compile_where_ast (e : PyExpr) : Except String (Row → Except String Bool) :=
  match validate_ast e with
  | .error m => .error m
  | .ok _ => .ok (fun row => predEval row e)

/-- Compile-then-apply on one record, as `DBEngine.select` does per row. -/
def applyWhere (e : PyExpr) (row : Row) : Except String Bool :=
  match compile_where_ast e with
  | .error m => .error m
  | .ok p => p row

mutual

/-- All `ast.Name` identifiers of an expression. -/
def exprNames : PyExpr → List String
  | .name i => [i]
  | .constant _ => []
  | .boolOp _ vs => listNamesAux vs
  | .compare l _ cs => exprNames l ++ listNamesAux cs
  | .callE f args => exprNames f ++ listNamesAux args
  | .attrE v _ => exprNames v
  | .subscrE v i => exprNames v ++ exprNames i
  | .binOpE l r => exprNames l ++ exprNames r
  | .unaryE v => exprNames v
  | .ifExpE t b o => exprNames t ++ exprNames b ++ exprNames o
  | .lambdaE b => exprNames b

/-- Names of an expression list field. -/
def listNamesAux : List PyExpr → List String
  | [] => []
  | e :: es => exprNames e ++ listNamesAux es

end

/-- The allow-list of the claim over C1's wording: the expression
wrapper, boolean and/or connectives (with their walked operator tokens),
comparisons restricted to the six allowed operators (with their walked
tokens), bare names (with their `Load` contexts), and literal constants.
Everything else — calls, attribute access, subscripting, arithmetic,
conditional/lambda expressions, `is`/`in` comparisons — is outside it. -/
def claimAllowedItem : WalkItem → Bool
  | .exprRoot => true
  | .loadTok => true
  | .boolTok _ => true
  | .cmpTok op => cmpAllowed op
  | .expr (.boolOp _ _) => true
  | .expr (.compare _ ops _) => ops.all cmpAllowed
  | .expr (.name _) => true
  | .expr (.constant _) => true
  | .expr _ => false

/-- The parsed tree contains a node outside the claim's allow-list. -/
def hasDisallowed (e : PyExpr) : Bool :=
  !(WalkItem.exprRoot :: walkExpr e).all claimAllowedItem

/-- The select cache never holds an entry for table `t` at a version
beyond the table's current version counter. Every operation except the
drop/recreate sequence of C10 preserves this. -/
def cacheBounded (s : DBState) (t : String) : Prop :=
  ∀ k rows, (k, rows) ∈ s.cache → k.table = t → k.version ≤ s.version t

/-! Concrete run used for C9's counterexample and C10: create a table,
insert one row, select (caching at version 1), drop and recreate the
table, then insert a different row, bringing the version back to 1. -/

/-- The empty engine state (fresh `PrimitiveDB` over no files). -/
def sc0 : DBState := ⟨[], [], [], []⟩

/-- After `create_table t (a:int)`. -/
def sc1 : DBState := (pdbCreateTable sc0 "t" [("a", "int")]).1

/-- After `insert t a=1`. -/
def sc2 : DBState := (pdbInsert sc1 "t" [("a", "1")]).1

/-- After `select t` (the full scan is now cached at version 1). -/
def sc3 : DBState := (pdbSelect sc2 "t" []).1

/-- After a confirmed `drop_table t`. -/
def sc4 : DBState := (pdbDropTable sc3 "t" true).1

/-- After re-`create_table t (a:int)` (version counter reset to 0). -/
def sc5 : DBState := (pdbCreateTable sc4 "t" [("a", "int")]).1

/-- After `insert t a=2` (version counter back at 1). -/
def sc6 : DBState := (pdbInsert sc5 "t" [("a", "2")]).1

/-- The one-comparison semantics of `_match`, factored out of the loop
body for the proofs: exactly the branch `pdbMatch` runs for the head
comparison, without the continuation. -/
def condEval (row : Row) (p : Prep) : Except DbErr Bool :=
  let left := (alookup row p.1).getD .vnone
  let op := p.2.1
  let value := p.2.2
  if op = "=" then .ok (pyEq left value)
  else if op = "!=" then .ok (!pyEq left value)
  else if op = ">" then
    if left = .vnone ∨ value = .vnone then .ok false
    else
      match pyGt left value with
      | none => .error (.pyTypeErr "TypeError: не сравнимые типы")
      | some b => .ok b
  else if op = "<" then
    if left = .vnone ∨ value = .vnone then .ok false
    else
      match pyLt left value with
      | none => .error (.pyTypeErr "TypeError: не сравнимые типы")
      | some b => .ok b
  else if op = ">=" then
    if left = .vnone ∨ value = .vnone then .ok false
    else
      match pyGe left value with
      | none => .error (.pyTypeErr "TypeError: не сравнимые типы")
      | some b => .ok b
  else if op = "<=" then
    if left = .vnone ∨ value = .vnone then .ok false
    else
      match pyLe left value with
      | none => .error (.pyTypeErr "TypeError: не сравнимые типы")
      | some b => .ok b
  else .error (.validationErr ("Неподдерживаемый оператор: " ++ op))

/-! ## Helper lemmas -/

theorem alookup_aset_self {α β : Type} [DecidableEq α] (m : List (α × β)) (k : α) (v : β) :
    alookup (aset m k v) k = some v := by
  induction m with
  | nil => simp [aset, alookup]
  | cons p rest ih =>
    rcases p with ⟨k2, v2⟩
    by_cases hk : k2 = k <;> simp [aset, alookup, hk, ih]

theorem mem_of_alookup_eq_some {α β : Type} [DecidableEq α] {m : List (α × β)} {k : α}
    {v : β} (h : alookup m k = some v) : (k, v) ∈ m := by
  induction m with
  | nil => simp [alookup] at h
  | cons p rest ih =>
    rcases p with ⟨k2, v2⟩
    by_cases hk : k2 = k
    · subst hk
      simp [alookup] at h
      simp [h]
    · simp [alookup, hk] at h
      exact List.mem_cons_of_mem _ (ih h)

/-- `pdbMatch` on a non-empty preparation: evaluate the head comparison
with `condEval`, short-circuit to `false` on a failing one, propagate
errors, and recurse otherwise. -/
theorem pdbMatch_cons (row : Row) (p : Prep) (rest : List Prep) :
    pdbMatch row (p :: rest) =
      (match condEval row p with
       | .error e => .error e
       | .ok true => pdbMatch row rest
       | .ok false => .ok false) := by
  rcases p with ⟨f, op, v⟩
  simp only [pdbMatch, condEval]
  by_cases h1 : op = "="
  · simp only [h1, if_pos rfl]
    cases hpe : pyEq ((alookup row f).getD .vnone) v <;> simp [hpe]
  by_cases h2 : op = "!="
  · simp [h1, h2]
    cases hpe : pyEq ((alookup row f).getD .vnone) v <;> simp [hpe]
  by_cases h3 : op = ">"
  · simp [h1, h2, h3]
    by_cases hn : (alookup row f).getD .vnone = PyVal.vnone ∨ v = PyVal.vnone
    · simp [hn]
    · simp [hn]
      cases hg : pyGt ((alookup row f).getD .vnone) v with
      | none => simp
      | some b => cases b <;> simp
  by_cases h4 : op = "<"
  · simp [h1, h2, h3, h4]
    by_cases hn : (alookup row f).getD .vnone = PyVal.vnone ∨ v = PyVal.vnone
    · simp [hn]
    · simp [hn]
      cases hg : pyLt ((alookup row f).getD .vnone) v with
      | none => simp
      | some b => cases b <;> simp
  by_cases h5 : op = ">="
  · simp [h1, h2, h3, h4, h5]
    by_cases hn : (alookup row f).getD .vnone = PyVal.vnone ∨ v = PyVal.vnone
    · simp [hn]
    · simp [hn]
      cases hg : pyGe ((alookup row f).getD .vnone) v with
      | none => simp
      | some b => cases b <;> simp
  by_cases h6 : op = "<="
  · simp [h1, h2, h3, h4, h5, h6]
    by_cases hn : (alookup row f).getD .vnone = PyVal.vnone ∨ v = PyVal.vnone
    · simp [hn]
    · simp [hn]
      cases hg : pyLe ((alookup row f).getD .vnone) v with
      | none => simp
      | some b => cases b <;> simp
  · simp [h1, h2, h3, h4, h5, h6]

theorem visitCheck_fails_of_disallowed {item : WalkItem}
    (h : claimAllowedItem item = false) : exceptOk (visitCheck item) = false := by
  cases item with
  | exprRoot => simp [claimAllowedItem] at h
  | loadTok => simp [claimAllowedItem] at h
  | boolTok op => simp [visitCheck, exceptOk]
  | cmpTok op => simp [visitCheck, exceptOk]
  | expr e =>
    cases e <;> try (simp_all [claimAllowedItem, visitCheck, exceptOk]; done)
    simp only [claimAllowedItem] at h
    simp [visitCheck, exceptOk, h]

theorem validateWalk_error_of_mem {l : List WalkItem} {item : WalkItem}
    (hmem : item ∈ l) (hbad : exceptOk (visitCheck item) = false) :
    exceptOk (validateWalk l) = false := by
  induction l with
  | nil => cases hmem
  | cons head rest ih =>
    rcases List.mem_cons.mp hmem with rfl | hmem2
    · cases hv : visitCheck item with
      | error m => simp [validateWalk, hv, exceptOk]
      | ok u => rw [hv] at hbad; simp [exceptOk] at hbad
    · cases hv : visitCheck head with
      | error m => simp [validateWalk, hv, exceptOk]
      | ok u => simpa [validateWalk, hv] using ih hmem2

theorem validateWalk_ok_all {l : List WalkItem} (h : validateWalk l = .ok ()) :
    ∀ item ∈ l, exceptOk (visitCheck item) = true := by
  induction l with
  | nil => intro item hm; cases hm
  | cons head rest ih =>
    intro item hm
    simp only [validateWalk] at h
    cases hv : visitCheck head with
    | error m => rw [hv] at h; cases h
    | ok u =>
      rw [hv] at h
      rcases List.mem_cons.mp hm with rfl | hm2
      · simp [hv, exceptOk]
      · exact ih h item hm2

/-- Every expression all of whose walked nodes pass `_validate_ast`'s
check evaluates without raising, provided each of its names resolves in
the predicate environment. (Strong induction on the term size; only
names, constants and degenerate comparisons can pass the check, since
walked operator token nodes always fail it.) -/
theorem evalExprOk_of_validated : ∀ (k : Nat) (e : PyExpr), sizeOf e ≤ k →
    ∀ row : Row,
    (∀ item ∈ walkExpr e, exceptOk (visitCheck item) = true) →
    (∀ n ∈ exprNames e, (envLookup row n).isSome = true) →
    ∃ v, evalExpr row e = .ok v := by
  intro k
  induction k with
  | zero =>
    intro e he
    exact absurd he (by cases e <;> simp)
  | succ k ih =>
    intro e he row hwalk hnames
    cases e with
    | name n =>
      have hn := hnames n (by simp [exprNames])
      cases hl : envLookup row n with
      | none => rw [hl] at hn; simp at hn
      | some v => exact ⟨v, by simp [evalExpr, hl]⟩
    | constant c => exact ⟨constVal c, rfl⟩
    | boolOp op vs =>
      have hb := hwalk (.boolTok op) (by simp [walkExpr])
      simp [visitCheck, exceptOk] at hb
    | compare l ops cs =>
      cases ops with
      | cons o os =>
        have hb := hwalk (.cmpTok o) (by simp [walkExpr])
        simp [visitCheck, exceptOk] at hb
      | nil =>
        have hszl : sizeOf l ≤ k := by
          simp only [PyExpr.compare.sizeOf_spec] at he
          have hcs : 0 < sizeOf cs := by cases cs <;> simp
          omega
        have hwl : ∀ item ∈ walkExpr l, exceptOk (visitCheck item) = true := by
          intro item hm
          exact hwalk item (by simp [walkExpr, hm])
        have hnl : ∀ n ∈ exprNames l, (envLookup row n).isSome = true := by
          intro n hm
          exact hnames n (by simp [exprNames, hm])
        obtain ⟨v, hv⟩ := ih l hszl row hwl hnl
        exact ⟨.vbool true, by simp [evalExpr, hv, evalChain]⟩
    | callE f args =>
      have hb := hwalk (.expr (.callE f args)) (by simp [walkExpr])
      simp [visitCheck, exceptOk] at hb
    | attrE v a =>
      have hb := hwalk (.expr (.attrE v a)) (by simp [walkExpr])
      simp [visitCheck, exceptOk] at hb
    | subscrE v i =>
      have hb := hwalk (.expr (.subscrE v i)) (by simp [walkExpr])
      simp [visitCheck, exceptOk] at hb
    | binOpE l r =>
      have hb := hwalk (.expr (.binOpE l r)) (by simp [walkExpr])
      simp [visitCheck, exceptOk] at hb
    | unaryE v =>
      have hb := hwalk (.expr (.unaryE v)) (by simp [walkExpr])
      simp [visitCheck, exceptOk] at hb
    | ifExpE t b o =>
      have hb := hwalk (.expr (.ifExpE t b o)) (by simp [walkExpr])
      simp [visitCheck, exceptOk] at hb
    | lambdaE b =>
      have hb := hwalk (.expr (.lambdaE b)) (by simp [walkExpr])
      simp [visitCheck, exceptOk] at hb

/-! ## Claim theorems -/

/-- C1: a where-expression whose parsed tree contains any node outside
the allow-list — in particular function calls, attribute access,
subscripting, arithmetic, conditional and lambda expressions, or a
comparison operator outside the allowed six — is rejected by
`compile_where` with a `WhereError` during static validation: no
predicate is produced, so nothing is ever evaluated. -/
theorem c1_allowlist_fails_closed :
    ∀ e : PyExpr, hasDisallowed e = true →
      exceptOk (compile_where_ast e) = false := by
  intro e h
  have hex : ∃ item ∈ WalkItem.exprRoot :: walkExpr e,
      claimAllowedItem item = false := by
    simp only [hasDisallowed, Bool.not_eq_true', List.all_eq_false,
      Bool.not_eq_true] at h
    exact h
  obtain ⟨item, hmem, hbad⟩ := hex
  have hvw := validateWalk_error_of_mem hmem (visitCheck_fails_of_disallowed hbad)
  unfold compile_where_ast validate_ast
  cases hval : validateWalk (WalkItem.exprRoot :: walkExpr e) with
  | error m => simp [exceptOk]
  | ok u =>
    unfold validate_ast at hvw
    rw [hval] at hvw
    simp [exceptOk] at hvw

/-- C1 witness: the call `f()` is rejected fail-closed. -/
theorem c1_allowlist_fails_closed_witness :
    exceptOk (compile_where_ast (PyExpr.callE (.name "f") [])) = false :=
  c1_allowlist_fails_closed (.callE (.name "f") []) (by rfl)

/-- C2 counterexample to the claim as stated: the bare name `flag`
passes `_validate_ast`, yet the compiled predicate applied to the empty
record raises a `NameError` instead of returning a boolean. -/
theorem c2_validated_predicate_counterexample :
    exceptOk (validate_ast (PyExpr.name "flag")) = true ∧
    applyWhere (PyExpr.name "flag") [] =
      .error "NameError: name is not defined: flag" := ⟨rfl, rfl⟩

/-- C2 (amended): applying a predicate compiled from a validated
where-expression to a record raises nothing and yields a boolean,
provided every bare name of the expression resolves in the evaluation
environment (the record's fields plus the `True`/`False` bindings);
a name absent from that environment raises a `NameError`. -/
theorem c2_validated_predicate_total :
    ∀ (e : PyExpr) (row : Row) (p : Row → Except String Bool),
      compile_where_ast e = .ok p →
      (∀ n ∈ exprNames e, (envLookup row n).isSome = true) →
      ∃ b, p row = .ok b := by
  intro e row p hc hnames
  unfold compile_where_ast at hc
  cases hv : validate_ast e with
  | error m => rw [hv] at hc; cases hc
  | ok u =>
    cases u
    rw [hv] at hc
    injection hc with hp
    subst hp
    have hwalk : ∀ item ∈ walkExpr e, exceptOk (visitCheck item) = true := by
      intro item hm
      unfold validate_ast at hv
      exact validateWalk_ok_all hv item (by simp [hm])
    obtain ⟨v, hvv⟩ := evalExprOk_of_validated (sizeOf e) e le_rfl row hwalk hnames
    exact ⟨pyTruthy v, by simp [predEval, hvv]⟩

/-- C2 witness: the validated expression `x` evaluated over a record
that has the field `x`. -/
theorem c2_validated_predicate_total_witness :
    ∃ b, applyWhere (PyExpr.name "x") [("x", PyVal.vint 3)] = .ok b :=
  c2_validated_predicate_total (.name "x") [("x", PyVal.vint 3)]
    (fun row => predEval row (.name "x")) rfl (by decide)

/-- C3: the failing behavior at the concrete inputs. A bare name IS
resolved against the record's fields at evaluation time (`age` over
`{age: 30}` yields true), but a name absent from the record raises a
`NameError` — the predicate environment is built from the row's own
keys only, so absence is NOT substituted by null as the claim states
(the claim matches the evident intent of the source's `row.get(k)`). -/
theorem c3_absent_name_raises :
    exceptOk (validate_ast (PyExpr.name "age")) = true ∧
    applyWhere (PyExpr.name "age") [("age", PyVal.vint 30)] = .ok true ∧
    applyWhere (PyExpr.name "age") [("name", PyVal.vstr "Bob")] =
      .error "NameError: name is not defined: age" := ⟨rfl, rfl, rfl⟩

/-- Shape of a successful `PrimitiveDB.insert`: the table existed, every
coercion succeeded, the returned row carries `id = last_id + 1`, and the
post-state has the bumped counter, the appended row and the touched
version. -/
theorem pdbInsert_ok_spec {s : DBState} {t : String}
    {values : List (String × String)} {s2 : DBState} {row : Row}
    (h : pdbInsert s t values = (s2, .ok row)) :
    ∃ info row0, alookup s.tables t = some info ∧
      coerceRow values info.schema = .ok row0 ∧
      row = aset row0 "id" (PyVal.vint (info.last_id + 1)) ∧
      s2 = touch { s with
          tables := aset s.tables t ⟨info.schema, info.last_id + 1⟩
          rowsStore := aset s.rowsStore t (loadTable s t ++ [row]) } t := by
  unfold pdbInsert at h
  by_cases hid : ensure_identifier t = true
  case neg => rw [if_neg hid] at h; simp at h
  rw [if_pos hid] at h
  split at h
  next => simp at h
  next info htab =>
    by_cases hm : ((info.schema.map Prod.fst).filter
        (fun f => (alookup values f).isNone)).isEmpty = true
    case neg => rw [if_neg hm] at h; simp at h
    rw [if_pos hm] at h
    by_cases hx : ((values.map Prod.fst).filter
        (fun f => (alookup info.schema f).isNone)).isEmpty = true
    case neg => rw [if_neg hx] at h; simp at h
    rw [if_pos hx] at h
    split at h
    next e hcr => simp at h
    next row0 hcr =>
      simp only [Prod.mk.injEq, Except.ok.injEq] at h
      exact ⟨info, row0, htab, hcr, h.2.symm, by rw [← h.1, ← h.2]⟩

/-- Shape of a successful `DBEngine.insert`. -/
theorem engInsert_ok_spec {s : EngState} {t : String}
    {pairs : List (String × String)} {s2 : EngState} {row : Row}
    (h : engInsert s t pairs = (s2, .ok row)) :
    ∃ fields payload c, alookup s.tablesJ t = some fields ∧
      validate_insert fields pairs = .ok payload ∧
      alookup s.counters t = some c ∧
      row = aset payload "id" (PyVal.vint (c + 1)) ∧
      s2 = { s with
          counters := aset s.counters t (c + 1)
          rowsJ := aset s.rowsJ t ((alookup s.rowsJ t).getD [] ++ [row]) } := by
  unfold engInsert at h
  split at h
  next => simp at h
  next fields htab =>
    split at h
    next e hvi => simp at h
    next payload hvi =>
      split at h
      next => simp at h
      next c hc =>
        simp only [Prod.mk.injEq, Except.ok.injEq] at h
        exact ⟨fields, payload, c, htab, hvi, hc, h.2.symm, by rw [← h.1, ← h.2]⟩

/-- Shape of a successful `PrimitiveDB.create_table`: a fresh metadata
entry with `last_id = 0`, an empty row file, version counter 0, and the
cache untouched. -/
theorem pdbCreate_ok_spec {s : DBState} {t : String}
    {columns : List (String × String)} {s2 : DBState}
    (h : pdbCreateTable s t columns = (s2, .ok ())) :
    ∃ schema, buildSchema [] columns = .ok schema ∧
      s2 = { s with
          tables := aset s.tables t ⟨schema, 0⟩
          rowsStore := aset s.rowsStore t []
          versions := aset s.versions t 0 } := by
  unfold pdbCreateTable at h
  by_cases hid : ensure_identifier t = true
  case neg => rw [if_neg hid] at h; simp at h
  rw [if_pos hid] at h
  by_cases hex : (alookup s.tables t).isSome = true
  case pos => rw [if_pos hex] at h; simp at h
  rw [if_neg hex] at h
  by_cases hcols : columns.isEmpty = true
  case pos => rw [if_pos hcols] at h; simp at h
  rw [if_neg hcols] at h
  split at h
  next e hbs => simp at h
  next schema hbs =>
    simp only [Prod.mk.injEq] at h
    exact ⟨schema, hbs, h.1.symm⟩

/-- C8: per table, insert assigns `last_id + 1` as the new row's id and
stores `last_id + 1` back, so ids are strictly increasing and start at 1
on a freshly created table (whose counter is 0); update and delete never
modify the metadata holding the counter. The same holds for the
`DBEngine` realization's `counters` map. -/
theorem c8_monotonic_ids :
    (∀ (s : DBState) (t : String) (values : List (String × String)) s2 row,
      pdbInsert s t values = (s2, .ok row) →
      ∃ info, alookup s.tables t = some info ∧
        alookup row "id" = some (.vint (info.last_id + 1)) ∧
        alookup s2.tables t = some ⟨info.schema, info.last_id + 1⟩) ∧
    (∀ (s : DBState) (t : String) (columns : List (String × String)) s2,
      pdbCreateTable s t columns = (s2, .ok ()) →
      ∃ schema, alookup s2.tables t = some ⟨schema, 0⟩) ∧
    (∀ (s : DBState) (t : String) sv w, ((pdbUpdate s t sv w).1).tables = s.tables) ∧
    (∀ (s : DBState) (t : String) w c, ((pdbDelete s t w c).1).tables = s.tables) ∧
    (∀ (s : EngState) (t : String) (pairs : List (String × String)) s2 row,
      engInsert s t pairs = (s2, .ok row) →
      ∃ c, alookup s.counters t = some c ∧
        alookup row "id" = some (.vint (c + 1)) ∧
        alookup s2.counters t = some (c + 1)) ∧
    (∀ (s : EngState) (t : String) sp pred,
      ((engUpdate s t sp pred).1).counters = s.counters) ∧
    (∀ (s : EngState) (t : String) pred,
      ((engDelete s t pred).1).counters = s.counters) := by
  refine ⟨?_, ?_, ?_, ?_, ?_, ?_, ?_⟩
  · intro s t values s2 row h
    obtain ⟨info, row0, htab, hcr, hrow, hs2⟩ := pdbInsert_ok_spec h
    refine ⟨info, htab, ?_, ?_⟩
    · rw [hrow]; exact alookup_aset_self row0 "id" _
    · rw [hs2]; exact alookup_aset_self s.tables t _
  · intro s t columns s2 h
    obtain ⟨schema, _, hs2⟩ := pdbCreate_ok_spec h
    exact ⟨schema, by rw [hs2]; exact alookup_aset_self s.tables t _⟩
  · intro s t sv w
    unfold pdbUpdate
    repeat' split
    all_goals rfl
  · intro s t w c
    unfold pdbDelete
    repeat' split
    all_goals rfl
  · intro s t pairs s2 row h
    obtain ⟨fields, payload, c, htab, hvi, hc, hrow, hs2⟩ := engInsert_ok_spec h
    refine ⟨c, hc, ?_, ?_⟩
    · rw [hrow]; exact alookup_aset_self payload "id" _
    · rw [hs2]; exact alookup_aset_self s.counters t _
  · intro s t sp pred
    unfold engUpdate
    repeat' split
    all_goals rfl
  · intro s t pred
    unfold engDelete
    repeat' split
    all_goals rfl

/-- Two consecutive selects with the same table and where-clause and no
intervening mutation: the second is served from cache, returns the same
rows, and leaves the state unchanged. -/
theorem pdbSelect_repeat {s : DBState} {t : String} {w : List Condition}
    {s1 : DBState} {r1 : SelectResult}
    (h : pdbSelect s t w = (s1, .ok r1)) :
    pdbSelect s1 t w = (s1, .ok ⟨r1.rows, true⟩) := by
  unfold pdbSelect at h
  by_cases hid : ensure_identifier t = true
  case neg => rw [if_neg hid] at h; simp at h
  rw [if_pos hid] at h
  split at h
  next => simp at h
  next info htab =>
    split at h
    next e hcw => simp at h
    next prepared hcw =>
      split at h
      next rows hch =>
        simp only [Prod.mk.injEq, Except.ok.injEq] at h
        obtain ⟨hs1, hr1⟩ := h
        subst hs1
        subst hr1
        simp [pdbSelect, hid, htab, hcw, hch]
      next hch =>
        split at h
        next e hmr => simp at h
        next rows hmr =>
          simp only [Prod.mk.injEq, Except.ok.injEq] at h
          obtain ⟨hs1, hr1⟩ := h
          subst hs1
          subst hr1
          simp [pdbSelect, hid, htab, hcw, DBState.version, alookup_aset_self]

/-- A successful insert bumps the table's version counter by one. -/
theorem pdbInsert_version {s : DBState} {t : String}
    {values : List (String × String)} {s2 : DBState} {row : Row}
    (h : pdbInsert s t values = (s2, .ok row)) :
    s2.version t = s.version t + 1 := by
  obtain ⟨info, row0, _, _, _, hs2⟩ := pdbInsert_ok_spec h
  subst hs2
  simp [touch, DBState.version, alookup_aset_self]

/-- A successful update bumps the table's version counter by one. -/
theorem pdbUpdate_version {s : DBState} {t : String}
    {sv : List (String × String)} {w : List Condition} {s2 : DBState} {n : Int}
    (h : pdbUpdate s t sv w = (s2, .ok n)) :
    s2.version t = s.version t + 1 := by
  unfold pdbUpdate at h
  by_cases hid : ensure_identifier t = true
  case neg => rw [if_neg hid] at h; simp at h
  rw [if_pos hid] at h
  split at h
  next => simp at h
  next info htab =>
    by_cases hsv : sv.isEmpty = true
    case pos => rw [if_pos hsv] at h; simp at h
    rw [if_neg hsv] at h
    split at h
    next e hps => simp at h
    next ps hps =>
      split at h
      next e hcw => simp at h
      next pw hcw =>
        split at h
        next e hur => simp at h
        next rows n2 hur =>
          simp only [Prod.mk.injEq, Except.ok.injEq] at h
          obtain ⟨hs2, _⟩ := h
          subst hs2
          simp [touch, DBState.version, alookup_aset_self]

/-- A successful confirmed delete bumps the table's version counter by
one. -/
theorem pdbDelete_version {s : DBState} {t : String}
    {w : List Condition} {s2 : DBState} {n : Int}
    (h : pdbDelete s t w true = (s2, .ok n)) :
    s2.version t = s.version t + 1 := by
  unfold pdbDelete at h
  by_cases hid : ensure_identifier t = true
  case neg => rw [if_neg hid] at h; simp at h
  rw [if_pos hid] at h
  split at h
  next => simp at h
  next info htab =>
    split at h
    next e hcw => simp at h
    next prepared hcw =>
      by_cases hp : prepared.isEmpty = true
      · rw [if_pos hp] at h
        rw [if_pos rfl] at h
        simp only [Prod.mk.injEq] at h
        obtain ⟨hs2, _⟩ := h
        subst hs2
        simp [touch, DBState.version, alookup_aset_self]
      · rw [if_neg hp] at h
        split at h
        next e hdel => simp at h
        next kept hdel =>
          simp only [Prod.mk.injEq] at h
          obtain ⟨hs2, _⟩ := h
          subst hs2
          simp [touch, DBState.version, alookup_aset_self]

/-- In a state whose cache holds no entry for the table beyond its
current version, a select right after a successful insert misses the
cache: it recomputes from storage and returns the uncached linear
scan. -/
theorem pdbSelect_after_insert {s : DBState} {t : String}
    {values : List (String × String)} {w : List Condition}
    {s1 : DBState} {row : Row} {s2 : DBState} {r : SelectResult}
    (hb : cacheBounded s t)
    (hi : pdbInsert s t values = (s1, .ok row))
    (hs : pdbSelect s1 t w = (s2, .ok r)) :
    r.from_cache = false ∧
    ∃ prepared, coerce_where s1.tables t w = .ok prepared ∧
      matchRows (loadTable s1 t) prepared = .ok r.rows := by
  obtain ⟨info, row0, htab0, hcr0, hrow0, hs1⟩ := pdbInsert_ok_spec hi
  have hcache : s1.cache = s.cache := by rw [hs1]; rfl
  have hver : s1.version t = s.version t + 1 := pdbInsert_version hi
  have hmiss : ∀ prepared : List Prep,
      alookup s1.cache ⟨t, prepared, s1.version t⟩ = none := by
    intro prepared
    cases hc : alookup s1.cache ⟨t, prepared, s1.version t⟩ with
    | none => rfl
    | some rows2 =>
      exfalso
      rw [hcache] at hc
      have hle := hb _ _ (mem_of_alookup_eq_some hc) rfl
      have hle2 : s1.version t ≤ s.version t := hle
      rw [hver] at hle2
      omega
  unfold pdbSelect at hs
  by_cases hid : ensure_identifier t = true
  case neg => rw [if_neg hid] at hs; simp at hs
  rw [if_pos hid] at hs
  split at hs
  next => simp at hs
  next info1 htab1 =>
    split at hs
    next e hcw => simp at hs
    next prepared hcw =>
      split at hs
      next rows hch => rw [hmiss prepared] at hch; cases hch
      next hch =>
        split at hs
        next e hmr => simp at hs
        next rows hmr =>
          simp only [Prod.mk.injEq, Except.ok.injEq] at hs
          obtain ⟨hs2, hr⟩ := hs
          subst hr
          exact ⟨rfl, prepared, hcw, by rw [hmr]⟩

/-- C9 counterexample to the claim as stated: after the drop/recreate
sequence, the table's version counter revisits 1, so an insert (a
mutation) followed by an identical select is served from the stale
cache with `from_cache = true` — the select does not recompute. The
root cause is the violated cache-version bound at `sc5`. -/
theorem c9_mutation_then_cached_select :
    (pdbInsert sc5 "t" [("a", "2")]).2 =
      .ok [("a", PyVal.vint 2), ("id", PyVal.vint 1)] ∧
    (pdbSelect sc6 "t" []).2 =
      .ok ⟨[[("a", PyVal.vint 1), ("id", PyVal.vint 1)]], true⟩ ∧
    ¬ cacheBounded sc5 "t" := by
  refine ⟨by decide, by decide, ?_⟩
  intro hcb
  have hle := hcb ⟨"t", [], 1⟩ [[("a", PyVal.vint 1), ("id", PyVal.vint 1)]]
    (by decide) rfl
  have h0 : sc5.version "t" = 0 := by decide
  rw [h0] at hle
  exact absurd hle (by decide)

/-- C9 (amended): two consecutive identical selects with no intervening
mutation return equal row lists with the second marked `from_cache`;
every successful insert, update, or confirmed delete increments the
table's version counter; and — provided no cache entry for the table
carries a version beyond the current counter (an invariant only the
drop/recreate sequence of C10 violates) — a select right after an
insert recomputes from storage (`from_cache = false`) and equals the
uncached linear scan. -/
theorem c9_cache_coherence :
    (∀ (s : DBState) (t : String) (w : List Condition) s1 r1,
      pdbSelect s t w = (s1, .ok r1) →
      pdbSelect s1 t w = (s1, .ok ⟨r1.rows, true⟩)) ∧
    (∀ (s : DBState) (t : String) (values : List (String × String)) s2 row,
      pdbInsert s t values = (s2, .ok row) → s2.version t = s.version t + 1) ∧
    (∀ (s : DBState) (t : String) sv w s2 n,
      pdbUpdate s t sv w = (s2, .ok n) → s2.version t = s.version t + 1) ∧
    (∀ (s : DBState) (t : String) w s2 n,
      pdbDelete s t w true = (s2, .ok n) → s2.version t = s.version t + 1) ∧
    (∀ (s : DBState) (t : String) (values : List (String × String)) w s1 row s2 r,
      cacheBounded s t → pdbInsert s t values = (s1, .ok row) →
      pdbSelect s1 t w = (s2, .ok r) →
      r.from_cache = false ∧
      ∃ prepared, coerce_where s1.tables t w = .ok prepared ∧
        matchRows (loadTable s1 t) prepared = .ok r.rows) := by
  refine ⟨?_, ?_, ?_, ?_, ?_⟩
  · intro s t w s1 r1 h
    exact pdbSelect_repeat h
  · intro s t values s2 row h
    exact pdbInsert_version h
  · intro s t sv w s2 n h
    exact pdbUpdate_version h
  · intro s t w s2 n h
    exact pdbDelete_version h
  · intro s t values w s1 row s2 r hb hi hs
    exact pdbSelect_after_insert hb hi hs

/-- C9 witness: the concrete run — select, identical select from cache;
insert bumping the version; insert-then-select recomputing (the cache
bound holds in the fresh state, whose cache is empty). -/
theorem c9_cache_coherence_witness :
    pdbSelect sc3 "t" [] =
      (sc3, .ok ⟨[[("a", PyVal.vint 1), ("id", PyVal.vint 1)]], true⟩) ∧
    sc2.version "t" = sc1.version "t" + 1 ∧
    (∃ prepared, coerce_where sc2.tables "t" [] = .ok prepared ∧
      matchRows (loadTable sc2 "t") prepared =
        .ok [[("a", PyVal.vint 1), ("id", PyVal.vint 1)]]) := by
  refine ⟨?_, ?_, ?_⟩
  · exact c9_cache_coherence.1 sc2 "t" [] sc3
      ⟨[[("a", PyVal.vint 1), ("id", PyVal.vint 1)]], false⟩ (by decide)
  · exact c9_cache_coherence.2.1 sc1 "t" [("a", "1")] sc2
      [("a", PyVal.vint 1), ("id", PyVal.vint 1)] (by decide)
  · have hb : cacheBounded sc1 "t" := by
      intro k rows hmem hk
      have : sc1.cache = [] := rfl
      rw [this] at hmem
      cases hmem
    have := c9_cache_coherence.2.2.2.2 sc1 "t" [("a", "1")] [] sc2
      [("a", PyVal.vint 1), ("id", PyVal.vint 1)] sc3
      ⟨[[("a", PyVal.vint 1), ("id", PyVal.vint 1)]], false⟩
      hb (by decide) (by decide)
    exact this.2

/-- C8 witness: three consecutive inserts into the freshly created table
yield ids 1, 2, 3, via the theorem applied at the first insert and
concrete evaluation of the others. -/
theorem c8_monotonic_ids_witness :
    (pdbInsert sc1 "t" [("a", "1")]).2 =
      .ok [("a", PyVal.vint 1), ("id", PyVal.vint 1)] ∧
    (pdbInsert sc2 "t" [("a", "5")]).2 =
      .ok [("a", PyVal.vint 5), ("id", PyVal.vint 2)] ∧
    (pdbInsert (pdbInsert sc2 "t" [("a", "5")]).1 "t" [("a", "7")]).2 =
      .ok [("a", PyVal.vint 7), ("id", PyVal.vint 3)] ∧
    (∃ info, alookup sc1.tables "t" = some info ∧
      alookup [("a", PyVal.vint 1), ("id", PyVal.vint 1)] "id" =
        some (.vint (info.last_id + 1)) ∧
      alookup sc2.tables "t" = some ⟨info.schema, info.last_id + 1⟩) := by
  refine ⟨by decide, by decide, by decide, ?_⟩
  exact c8_monotonic_ids.1 sc1 "t" [("a", "1")] sc2
    [("a", PyVal.vint 1), ("id", PyVal.vint 1)] (by decide)

/-- C4: in the token-splitting realization, `parse_scalar` maps the
trimmed, case-insensitive literal tokens `null`/`none` to the null value
for every declared type name, before any type-specific handling; in the
other realization `cast_value` has no null shortcut, so casting the
token `null` fails under `int`, `float` and `bool` and yields the text
`null` under `str`. -/
theorem c4_null_token_policy :
    (∀ raw type_name : String,
      strToLower (strTrim raw) = "null" ∨ strToLower (strTrim raw) = "none" →
      parse_scalar raw type_name = .ok .vnone) ∧
    exceptOk (cast_value "int" "null") = false ∧
    exceptOk (cast_value "float" "null") = false ∧
    exceptOk (cast_value "bool" "null") = false ∧
    cast_value "str" "null" = .ok (.vstr "null") := by
  refine ⟨?_, by decide, by decide, by decide, by decide⟩
  intro raw type_name h
  rcases h with h | h <;> simp [parse_scalar, h]

/-- C4 witness: the token `NULL` (any case, surrounding blanks) coerces
to null even under the `int` declared type. -/
theorem c4_null_token_policy_witness :
    parse_scalar " NULL " "int" = .ok .vnone :=
  c4_null_token_policy.1 " NULL " "int" (Or.inl (by decide))

/-- C5: `parse_comparison` selects operators longest-match-first:
`age>=30` parses to field `age`, operator `>=`, raw value `30`; and in
general, whenever `>=` occurs in the trimmed phrase, a successful parse
returns the operator `>=` (never `>` with leftover `=30`, never a
mis-split at `=`, since `>=` is tried before `=` and `>`). -/
theorem c5_longest_match_first :
    parse_comparison "age>=30" = .ok ⟨"age", ">=", "30"⟩ ∧
    (∀ expr c, (splitOnce ">=" (strTrim expr)).isSome = true →
      parse_comparison expr = .ok c → c.op = ">=") := by
  refine ⟨by decide, ?_⟩
  intro expr c hocc hp
  simp only [parse_comparison, COMPARISON_OPS, parse_comparison_go] at hp
  cases hs : splitOnce ">=" (strTrim expr) with
  | none => rw [hs] at hocc; simp at hocc
  | some pr =>
    rcases pr with ⟨fieldRaw, rawRaw⟩
    rw [hs] at hp
    by_cases hid : ensure_identifier (strTrim fieldRaw) = true
    · by_cases hr : strTrim rawRaw = ""
      · simp [hid, hr] at hp
      · simp [hid, hr] at hp
        rw [← hp]
    · simp [hid] at hp

/-- C5 witness: the general longest-match statement applied at
`age>=30`. -/
theorem c5_longest_match_first_witness :
    (Condition.mk "age" ">=" "30").op = ">=" :=
  c5_longest_match_first.2 "age>=30" ⟨"age", ">=", "30"⟩ (by decide) (by decide)

/-- C6: in `_match`, an ordering comparison (`>`, `<`, `>=`, `<=`) whose
record-side or comparison-side value is null evaluates to false (the
row is excluded) without raising; `=` and `!=` treat null as an ordinary
comparable value (they evaluate `pyEq` and never raise); and the
conjunction short-circuits to false on the first failing comparison,
whatever follows it. -/
theorem c6_null_ordering_and_shortcircuit :
    (∀ (row : Row) (rest : List Prep) (f op : String) (v : PyVal),
      (op = ">" ∨ op = "<" ∨ op = ">=" ∨ op = "<=") →
      ((alookup row f).getD .vnone = .vnone ∨ v = .vnone) →
      pdbMatch row ((f, op, v) :: rest) = .ok false) ∧
    (∀ (row : Row) (rest : List Prep) (f : String) (v : PyVal),
      pdbMatch row ((f, "=", v) :: rest) =
        (if pyEq ((alookup row f).getD .vnone) v then pdbMatch row rest
         else .ok false)) ∧
    (∀ (row : Row) (rest : List Prep) (f : String) (v : PyVal),
      pdbMatch row ((f, "!=", v) :: rest) =
        (if pyEq ((alookup row f).getD .vnone) v then .ok false
         else pdbMatch row rest)) ∧
    (∀ (row : Row) (c : Prep) (rest : List Prep),
      pdbMatch row [c] = .ok false → pdbMatch row (c :: rest) = .ok false) := by
  refine ⟨?_, ?_, ?_, ?_⟩
  · intro row rest f op v hop hnull
    rcases hop with h | h | h | h <;>
      simp [pdbMatch_cons, condEval, h, hnull]
  · intro row rest f v
    rw [pdbMatch_cons]
    simp only [condEval]
    cases hpe : pyEq ((alookup row f).getD .vnone) v <;> simp [hpe]
  · intro row rest f v
    rw [pdbMatch_cons]
    simp only [condEval]
    cases hpe : pyEq ((alookup row f).getD .vnone) v <;> simp [hpe]
  · intro row c rest h
    rw [pdbMatch_cons] at h ⊢
    cases hc : condEval row c with
    | error e => rw [hc] at h; simp at h
    | ok b =>
      rw [hc] at h
      cases b
      · rfl
      · simp only [pdbMatch] at h
        simp at h

/-- C6 witness: a row with `age: null` fails `age>5` and `age<=5`
without error, satisfies `age=null`, and a failing head comparison
short-circuits past a later error-raising one. -/
theorem c6_null_ordering_and_shortcircuit_witness :
    pdbMatch [("age", PyVal.vnone)] [("age", ">", PyVal.vint 5)] = .ok false ∧
    pdbMatch [("age", PyVal.vnone)] [("age", "<=", PyVal.vint 5)] = .ok false ∧
    pdbMatch [("age", PyVal.vnone)]
      [("age", ">", PyVal.vint 5), ("age", "??", PyVal.vint 5)] = .ok false := by
  refine ⟨?_, ?_, ?_⟩
  · exact c6_null_ordering_and_shortcircuit.1 [("age", PyVal.vnone)] []
      "age" ">" (PyVal.vint 5) (Or.inl rfl) (Or.inl (by decide))
  · exact c6_null_ordering_and_shortcircuit.1 [("age", PyVal.vnone)] []
      "age" "<=" (PyVal.vint 5) (Or.inr (Or.inr (Or.inr rfl))) (Or.inl (by decide))
  · exact c6_null_ordering_and_shortcircuit.2.2.2 [("age", PyVal.vnone)]
      ("age", ">", PyVal.vint 5) [("age", "??", PyVal.vint 5)] (by decide)

/-- C10: after caching a select at version 1, a confirmed drop and a
re-create of the table leave the cache untouched and reset the version
counter to 0, so one insert brings the version back to 1 and the next
select returns the dropped table's cached rows marked `from_cache`,
not the recreated table's current rows. -/
theorem c10_stale_cache_after_recreate :
    (pdbSelect sc2 "t" []).2 =
      .ok ⟨[[("a", PyVal.vint 1), ("id", PyVal.vint 1)]], false⟩ ∧
    (pdbDropTable sc3 "t" true).2 = .ok () ∧
    sc4.cache = sc3.cache ∧
    sc5.cache = sc3.cache ∧
    sc5.version "t" = 0 ∧
    sc6.version "t" = sc3.version "t" ∧
    (pdbSelect sc6 "t" []).2 =
      .ok ⟨[[("a", PyVal.vint 1), ("id", PyVal.vint 1)]], true⟩ ∧
    matchRows (loadTable sc6 "t") [] =
      .ok [[("a", PyVal.vint 2), ("id", PyVal.vint 1)]] ∧
    [[("a", PyVal.vint 1), ("id", PyVal.vint 1)]] ≠
      [[("a", PyVal.vint 2), ("id", PyVal.vint 1)]] := by
  refine ⟨by decide, by decide, by decide, by decide, by decide, by decide,
    by decide, by decide, by decide⟩

/-- C7: a failed insert — missing field, unknown field, or value
coercion failure — changes nothing: in both realizations the id counter
and the stored rows (the whole engine state) are exactly as before,
because every check and coercion precedes the counter bump and the
append. -/
theorem c7_failed_insert_no_mutation :
    (∀ (s : DBState) (t : String) (values : List (String × String)) s2 e,
      pdbInsert s t values = (s2, .error e) → s2 = s) ∧
    (∀ (s : EngState) (t : String) (pairs : List (String × String)) s2 e,
      engInsert s t pairs = (s2, .error e) → s2 = s) := by
  constructor
  · intro s t values s2 e h
    unfold pdbInsert at h
    repeat' split at h
    all_goals simp_all
  · intro s t pairs s2 e h
    unfold engInsert at h
    repeat' split at h
    all_goals simp_all

/-- C7 witness: inserting `a="abc"` into an `a:int` table fails in both
realizations and leaves the state untouched. -/
theorem c7_failed_insert_no_mutation_witness :
    (pdbInsert sc1 "t" [("a", "abc")]).1 = sc1 ∧
    (engInsert ⟨[("t", [("a", "int")])], [("t", 0)], [("t", [])]⟩ "t"
      [("a", "abc")]).1 = ⟨[("t", [("a", "int")])], [("t", 0)], [("t", [])]⟩ := by
  constructor
  · exact c7_failed_insert_no_mutation.1 sc1 "t" [("a", "abc")] _
      (.validationErr "Некорректное значение int: abc") (by decide)
  · exact c7_failed_insert_no_mutation.2 _ "t" [("a", "abc")] _
      (.typeErrorDB "invalid literal for int: abc") (by decide)

end SimpleDb
